import Mathlib

/-!
Verification of the mymap search orchestration pipeline.

This file gives a shallow embedding of the pipeline's core functions:

* `normalizeGeminiPayload` (packages/frontend/src/lib/gemini.ts) over a
  JSON-like value type `JsVal` that models JavaScript runtime values,
  including `undefined`, truthiness and property access (which throws a
  TypeError on nullish receivers, modelled with `Except Unit`);
* URL validation / confidence scoring
  (packages/frontend/src/lib/urlValidation.ts);
* haversine distance and the search route's geocode/radius filter
  (packages/frontend/src/lib/geocoding.ts,
  packages/frontend/src/app/api/search/route.ts);
* the client search coordinator of MapSearch.tsx (and its variant in the
  repository, called the part_006 variant below): submit, cache, sequence
  ids and search-completion state updates, modelled as explicit state
  passing over `CoordState`.
-/

namespace MyMap

/-- JavaScript runtime values as produced by JSON decoding, plus `undefined`
(which arises from missing-property access). Numbers are modelled as
rationals; none of the embedded code does arithmetic on payload numbers. -/
inductive JsVal where
  | undefined : JsVal
  | null : JsVal
  | bool : Bool → JsVal
  | num : ℚ → JsVal
  | str : String → JsVal
  | arr : List JsVal → JsVal
  | obj : List (String × JsVal) → JsVal
deriving Repr

/-- Association-list lookup for object fields (JSON objects have unique keys). -/
def jlookup : List (String × JsVal) → String → Option JsVal
  | [], _ => none
  | (k, v) :: rest, key => if k = key then some v else jlookup rest key

/-- A value is nullish when it is `null` or `undefined` (the values `??`
falls through on, and whose property access throws). -/
def JsVal.isNullish : JsVal → Bool
  | .undefined => true
  | .null => true
  | _ => false

/-- JavaScript truthiness: `undefined`, `null`, `false`, `0` and `""` are
falsy; every object and array is truthy. (`NaN` is not representable in the
rational model and never arises in the embedded code paths.) -/
def JsVal.truthy : JsVal → Bool
  | .undefined => false
  | .null => false
  | .bool b => b
  | .num q => if q = 0 then false else true
  | .str s => if s = "" then false else true
  | .arr _ => true
  | .obj _ => true

/-- Whether `typeof v === "object"` holds (true for objects, arrays and
`null` in JavaScript). -/
def JsVal.typeofObject : JsVal → Bool
  | .null => true
  | .arr _ => true
  | .obj _ => true
  | _ => false

/-- Whether `typeof v === "string"` holds. -/
def JsVal.isString : JsVal → Bool
  | .str _ => true
  | _ => false

/-- Whether `Array.isArray(v)` holds. -/
def JsVal.asArr : JsVal → Option (List JsVal)
  | .arr xs => some xs
  | _ => none

/-- Property access on a value already known to be non-nullish: reading a
missing key, or any key of a primitive, yields `undefined`. -/
def JsVal.getD : JsVal → String → JsVal
  | .obj fields, key => (jlookup fields key).getD .undefined
  | _, _ => .undefined

/-- Property access `v[key]` with JavaScript exception behaviour: throws a
TypeError when the receiver is nullish, otherwise reads like `getD`. -/
def JsVal.getF : JsVal → String → Except Unit JsVal
  | .undefined, _ => .error ()
  | .null, _ => .error ()
  | v, key => .ok (v.getD key)

/-- Optional chaining `v?.key`: `undefined` on a nullish receiver. -/
def JsVal.optChain (v : JsVal) (key : String) : JsVal :=
  if v.isNullish then .undefined else v.getD key

/-- Nullish coalescing `a ?? b`. -/
def jcoalesce (a b : JsVal) : JsVal :=
  if a.isNullish then b else a

/-- Logical or `a || b` on values. -/
def jor (a b : JsVal) : JsVal :=
  if a.truthy then a else b

/-- Coordinate latitude aliases, translated from gemini.ts
`place.coordinates.latitude ?? place.coordinates.lat ?? place.coordinates.y ?? 0`. -/
def resolvedLatitude (coords : JsVal) : JsVal :=
  jcoalesce (jcoalesce (jcoalesce (coords.getD "latitude") (coords.getD "lat"))
    (coords.getD "y")) (.num 0)

/-- Coordinate longitude aliases, translated from gemini.ts
`place.coordinates.longitude ?? place.coordinates.lng ?? place.coordinates.x ?? 0`. -/
def resolvedLongitude (coords : JsVal) : JsVal :=
  jcoalesce (jcoalesce (jcoalesce (coords.getD "longitude") (coords.getD "lng"))
    (coords.getD "x")) (.num 0)

/-- Normalization of one place entry, translated from the `sourcePlaces.map`
body in gemini.ts `normalizeGeminiPayload`. Property access on a nullish
entry throws, exactly as in JavaScript. -/
def normPlace (place : JsVal) (index : ℕ) : Except Unit JsVal := do
  let pid ← place.getF "id"
  let pname ← place.getF "name"
  let pdesc ← place.getF "description"
  let paddr ← place.getF "address"
  let pcoords ← place.getF "coordinates"
  let coordsVal : JsVal :=
    if pcoords.truthy then
      .obj [("latitude", resolvedLatitude pcoords),
            ("longitude", resolvedLongitude pcoords)]
    else .undefined
  .ok (.obj [("id", jor pid (.str ("place-" ++ toString index))),
             ("name", pname),
             ("description", pdesc),
             ("address", paddr),
             ("coordinates", coordsVal),
             ("type", .str "place")])

/-- Index-carrying traversal of the places array; the first thrown TypeError
aborts the whole `map`, as in JavaScript. -/
def normPlaces : ℕ → List JsVal → Except Unit (List JsVal)
  | _, [] => .ok []
  | index, place :: rest => do
    let v ← normPlace place index
    let vs ← normPlaces (index + 1) rest
    .ok (v :: vs)

/-- Selection of the places array, translated from gemini.ts:
`Array.isArray(raw.suggested_places) ? raw.suggested_places
 : Array.isArray(raw.places) ? raw.places : []`. -/
def sourcePlaces (raw : JsVal) : List JsVal :=
  match (raw.getD "suggested_places").asArr with
  | some xs => xs
  | none => ((raw.getD "places").asArr).getD []

/-- Latitude/longitude pair used for the user location parameter. -/
def coordObj (loc : ℚ × ℚ) : JsVal :=
  .obj [("latitude", .num loc.1), ("longitude", .num loc.2)]

/-- Fallback parsed query of gemini.ts `normalizeGeminiPayload`:
`{searchTerm: query, ...(userLocation && {location: {coordinates: userLocation}})}`. -/
def fallbackParsedQuery (query : String) (userLocation : Option (ℚ × ℚ)) : JsVal :=
  match userLocation with
  | some loc =>
    .obj [("searchTerm", .str query), ("location", .obj [("coordinates", coordObj loc)])]
  | none => .obj [("searchTerm", .str query)]

/-- The `searchIntent` local of `normalizeGeminiPayload`:
`raw.search_intent && typeof raw.search_intent === "object" ? raw.search_intent : null`. -/
def searchIntentOf (raw : JsVal) : JsVal :=
  let si := raw.getD "search_intent"
  if si.truthy && si.typeofObject then si else .null

/-- The search-term alias chain of `normalizeGeminiPayload`:
`searchIntent?.query || (typeof raw.search_intent === "string" ? raw.search_intent : "")
 || raw.searchTerm || query`. -/
def intentSearchTerm (raw : JsVal) (query : String) : JsVal :=
  jor (jor (jor ((searchIntentOf raw).optChain "query")
      (if (raw.getD "search_intent").isString then raw.getD "search_intent" else .str ""))
    (raw.getD "searchTerm")) (.str query)

/-- Location object built from a truthy intent/raw location value:
`{coordinates: {latitude: l.latitude, longitude: l.longitude}}`. -/
def mkLocObj (l : JsVal) : JsVal :=
  .obj [("coordinates", .obj [("latitude", l.getD "latitude"),
                              ("longitude", l.getD "longitude")])]

/-- Output record of the normalizer; both fields keep the raw JavaScript
value shape, because the pass-through branch returns unvalidated data. -/
structure NormOut where
  parsedQuery : JsVal
  results : JsVal
deriving Repr

/-- Whether `normalizeGeminiPayload` takes its truthy-`parsedQuery`
pass-through branch. -/
def passThruBranch (raw : JsVal) : Bool :=
  raw.truthy && raw.typeofObject && (raw.getD "parsedQuery").truthy

/-- The parsed-query object built on the intent branch of
`normalizeGeminiPayload`: `searchTerm` from the alias chain, an optional
`context.filters` entry, then an optional `location` entry from
`searchIntent.location` or `raw.location`, in object insertion order. -/
def intentParsedQuery (raw : JsVal) (query : String) : JsVal :=
  let searchIntent := searchIntentOf raw
  let ctxFields :=
    if (searchIntent.optChain "filters").truthy then
      [("context", JsVal.obj [("filters", searchIntent.optChain "filters")])]
    else []
  let locFields :=
    if (searchIntent.optChain "location").truthy then
      [("location", mkLocObj (searchIntent.optChain "location"))]
    else if (raw.getD "location").truthy then
      [("location", mkLocObj (raw.getD "location"))]
    else []
  .obj (("searchTerm", intentSearchTerm raw query) :: (ctxFields ++ locFields))

/-- Translation of `normalizeGeminiPayload` from
packages/frontend/src/lib/gemini.ts (the variant with `suggested_places` /
`places` aliases and the `latitude ?? lat ?? y ?? 0` coordinate chain).
Returns `.error ()` when the JavaScript original would throw a TypeError. -/
def normalizeGeminiPayload (raw : JsVal) (query : String)
    (userLocation : Option (ℚ × ℚ)) : Except Unit NormOut :=
  if ¬ (raw.truthy && raw.typeofObject) then
    .ok ⟨fallbackParsedQuery query userLocation, .arr []⟩
  else if (raw.getD "parsedQuery").truthy then
    .ok ⟨raw.getD "parsedQuery", jor (raw.getD "results") (.arr [])⟩
  else
    match normPlaces 0 (sourcePlaces raw) with
    | .error e => .error e
    | .ok results => .ok ⟨intentParsedQuery raw query, .arr results⟩

/-- First populated (non-nullish) key of an ordered alias list, defaulting
to `0`; this is the spec's description of coordinate alias resolution. -/
def firstPopulated (coords : JsVal) : List String → JsVal
  | [] => .num 0
  | k :: rest =>
    if (coords.getD k).isNullish then firstPopulated coords rest else coords.getD k

theorem JsVal.getF_of_not_nullish (v : JsVal) (h : v.isNullish = false) (key : String) :
    v.getF key = .ok (v.getD key) := by
  cases v <;> simp_all [JsVal.getF, JsVal.isNullish]

theorem normPlace_ok (place : JsVal) (i : ℕ) (h : place.isNullish = false) :
    ∃ v, normPlace place i = .ok v := by
  cases place with
  | undefined => simp [JsVal.isNullish] at h
  | null => simp [JsVal.isNullish] at h
  | bool b => exact ⟨_, rfl⟩
  | num q => exact ⟨_, rfl⟩
  | str s => exact ⟨_, rfl⟩
  | arr xs => exact ⟨_, rfl⟩
  | obj fields => exact ⟨_, rfl⟩

theorem normPlaces_ok (places : List JsVal) (h : ∀ p ∈ places, p.isNullish = false) :
    ∀ i, ∃ vs, normPlaces i places = .ok vs := by
  induction places with
  | nil => exact fun i => ⟨[], rfl⟩
  | cons p rest ih =>
    intro i
    obtain ⟨v, hv⟩ := normPlace_ok p i (h p (by simp))
    obtain ⟨vs, hvs⟩ := ih (fun q hq => h q (by simp [hq])) (i + 1)
    exact ⟨v :: vs, by simp only [normPlaces, hv, hvs]; rfl⟩

/-- C2 counterexample input: a places array containing a nullish entry. -/
def c2BadPayload : JsVal := .obj [("suggested_places", .arr [.null])]

/-- C2 (counterexample): the claim says the normalizer never throws for
place arrays containing arbitrary entries, but on
`{suggested_places: [null]}` the JavaScript original evaluates `place.id`
on `null` and throws a TypeError; the embedding returns `.error ()`. -/
theorem c2_throws_on_nullish_place_entry :
    normalizeGeminiPayload c2BadPayload "tapas" none = .error () := rfl

/-- C2 (amended): `normalizeGeminiPayload` never throws provided every
entry of the selected places array is non-nullish; on such inputs, when the
input is not a truthy object/array the fallback record with
`searchTerm = query` and an empty results array is returned; when the input
is an object/array without a truthy `parsedQuery` field the results field
is always an array and `parsedQuery.searchTerm` is the alias chain value,
which equals the original query whenever all alias fields are falsy. -/
theorem c2_normalizer_total_on_sane_places (raw : JsVal) (query : String)
    (userLocation : Option (ℚ × ℚ))
    (h : ∀ p ∈ sourcePlaces raw, p.isNullish = false) :
    (∃ out, normalizeGeminiPayload raw query userLocation = .ok out) ∧
    ((raw.truthy && raw.typeofObject) = false →
      normalizeGeminiPayload raw query userLocation =
        .ok ⟨fallbackParsedQuery query userLocation, .arr []⟩ ∧
      (fallbackParsedQuery query userLocation).getD "searchTerm" = .str query) ∧
    ((raw.truthy && raw.typeofObject) = true →
      (raw.getD "parsedQuery").truthy = false →
      ∃ out, normalizeGeminiPayload raw query userLocation = .ok out ∧
        (∃ xs, out.results = JsVal.arr xs) ∧
        out.parsedQuery.getD "searchTerm" = intentSearchTerm raw query) ∧
    (((searchIntentOf raw).optChain "query").truthy = false →
      (if (raw.getD "search_intent").isString then raw.getD "search_intent"
        else JsVal.str "").truthy = false →
      (raw.getD "searchTerm").truthy = false →
      intentSearchTerm raw query = .str query) := by
  have hfall : (raw.truthy && raw.typeofObject) = false →
      normalizeGeminiPayload raw query userLocation =
        .ok ⟨fallbackParsedQuery query userLocation, .arr []⟩ := by
    intro hb
    simp [normalizeGeminiPayload, hb]
  have hintent : (raw.truthy && raw.typeofObject) = true →
      (raw.getD "parsedQuery").truthy = false →
      ∃ out, normalizeGeminiPayload raw query userLocation = .ok out ∧
        (∃ xs, out.results = JsVal.arr xs) ∧
        out.parsedQuery.getD "searchTerm" = intentSearchTerm raw query := by
    intro hb hp
    obtain ⟨vs, hvs⟩ := normPlaces_ok (sourcePlaces raw) h 0
    refine ⟨⟨intentParsedQuery raw query, .arr vs⟩, ?_, ⟨vs, rfl⟩, ?_⟩
    · simp [normalizeGeminiPayload, hb, hp, hvs]
    · simp [intentParsedQuery, JsVal.getD, jlookup]
  refine ⟨?_, fun hb => ⟨hfall hb, ?_⟩, hintent, ?_⟩
  · by_cases hb : (raw.truthy && raw.typeofObject) = true
    · by_cases hp : (raw.getD "parsedQuery").truthy = true
      · exact ⟨⟨raw.getD "parsedQuery", jor (raw.getD "results") (.arr [])⟩,
          by simp [normalizeGeminiPayload, hb, hp]⟩
      · obtain ⟨out, hout, _⟩ := hintent hb (by simp_all)
        exact ⟨out, hout⟩
    · exact ⟨_, hfall (by simp_all)⟩
  · cases userLocation <;> simp [fallbackParsedQuery, JsVal.getD, jlookup]
  · intro h1 h2 h3
    simp [intentSearchTerm, jor, h1, h2, h3]

/-- C2 witness payload: one well-formed place entry. -/
def c2GoodPayload : JsVal := .obj [("places", .arr [.obj [("name", .str "Cafe")]])]

theorem c2_normalizer_witness :
    ∃ out, normalizeGeminiPayload c2GoodPayload "sushi" none = .ok out :=
  (c2_normalizer_total_on_sane_places c2GoodPayload "sushi" none (by decide)).1

/-- C7 test payload: a place whose coordinates object carries both
`{lat: 1, lng: 2}` and `{latitude: 3, longitude: 4}`. -/
def c7Payload : JsVal :=
  .obj [("places", .arr [.obj [("name", .str "P"),
    ("coordinates", .obj [("lat", .num 1), ("lng", .num 2),
                          ("latitude", .num 3), ("longitude", .num 4)])]])]

/-- C7: coordinate resolution takes the first populated field per axis in
the order latitude/longitude, then lat/lng, then x/y; in particular the
mixed payload with `{lat:1, lng:2}` and `{latitude:3, longitude:4}`
resolves to `(3, 4)` end to end through `normalizeGeminiPayload`. -/
theorem c7_coordinate_alias_priority :
    (∀ coords : JsVal, resolvedLatitude coords =
      firstPopulated coords ["latitude", "lat", "y"]) ∧
    (∀ coords : JsVal, resolvedLongitude coords =
      firstPopulated coords ["longitude", "lng", "x"]) ∧
    normalizeGeminiPayload c7Payload "q" none =
      .ok ⟨.obj [("searchTerm", .str "q")],
           .arr [.obj [("id", .str "place-0"), ("name", .str "P"),
                       ("description", .undefined), ("address", .undefined),
                       ("coordinates", .obj [("latitude", .num 3),
                                             ("longitude", .num 4)]),
                       ("type", .str "place")]]⟩ := by
  refine ⟨?_, ?_, rfl⟩
  · intro coords
    by_cases h1 : (coords.getD "latitude").isNullish = true <;>
      by_cases h2 : (coords.getD "lat").isNullish = true <;>
        by_cases h3 : (coords.getD "y").isNullish = true <;>
          simp [resolvedLatitude, firstPopulated, jcoalesce, h1, h2, h3]
  · intro coords
    by_cases h1 : (coords.getD "longitude").isNullish = true <;>
      by_cases h2 : (coords.getD "lng").isNullish = true <;>
        by_cases h3 : (coords.getD "x").isNullish = true <;>
          simp [resolvedLongitude, firstPopulated, jcoalesce, h1, h2, h3]

/-! Section: JavaScript string primitives. The embedded code uses
`split("|")`, `trim()`, `toLowerCase()` and `includes(...)`; these are
modelled by structural recursion over the character list so that concrete
inputs evaluate by kernel reduction. -/

/-- The pipe separator character `|`. -/
def pipeChar : Char := Char.ofNat 124

/-- Splitting a character list at a separator; JS `"a|b".split("|")` is
`["a","b"]`, `"".split("|")` is `[""]`, `"a||b"` gives an empty middle. -/
def splitCharAux (sep : Char) : List Char → List Char → List String
  | [], acc => [String.mk acc.reverse]
  | c :: rest, acc =>
    if c = sep then String.mk acc.reverse :: splitCharAux sep rest []
    else splitCharAux sep rest (c :: acc)

/-- JS `s.split(sep)` for a single-character separator. -/
def jsSplit (s : String) (sep : Char) : List String :=
  splitCharAux sep s.data []

/-- Leading-whitespace removal on a character list. -/
def dropLeadingWs : List Char → List Char
  | [] => []
  | c :: rest => if c.isWhitespace then dropLeadingWs rest else c :: rest

/-- JS `s.trim()`: strip whitespace from both ends. -/
def jsTrim (s : String) : String :=
  String.mk ((dropLeadingWs ((dropLeadingWs s.data).reverse)).reverse)

/-- JS `s.toLowerCase()` (ASCII case folding, which covers the embedded
comparisons). -/
def jsToLower (s : String) : String :=
  String.mk (s.data.map Char.toLower)

/-- Whether `pat` occurs at the start of `text`. -/
def listPrefixOf : List Char → List Char → Bool
  | [], _ => true
  | _ :: _, [] => false
  | a :: as, b :: bs => a = b && listPrefixOf as bs

/-- Whether `pat` occurs anywhere in `text`. -/
def containsSub (text pat : List Char) : Bool :=
  match text with
  | [] => listPrefixOf pat []
  | c :: rest => listPrefixOf pat (c :: rest) || containsSub rest pat

/-- JS `s.includes(sub)`. -/
def jsIncludes (s sub : String) : Bool := containsSub s.data sub.data

/-! Section: URL validation and confidence scoring
(packages/frontend/src/lib/urlValidation.ts). Optional string fields mirror
TypeScript optionals; absent and `undefined` both map to `none`. The URL
verification map is modelled as `validation : String → Bool`, where a URL
missing from the map reads as `false` (JS `Map.get` yields `undefined`). -/

/-- Confidence tier values. -/
inductive Confidence where
  | high
  | medium
  | low
deriving DecidableEq, Repr

/-- The `AiSearchResult` record of lib/searchTypes.ts (as used by
urlValidation.ts); optional fields are `Option`s, ratings are rational. -/
structure AiSearchResult where
  id : Option String := none
  name : String := ""
  description : Option String := none
  address : Option String := none
  photoUrl : Option String := none
  rating : Option ℚ := none
  priceRange : Option String := none
  website : Option String := none
  phone : Option String := none
  sources : Option (List String) := none
  coordinates : Option (ℚ × ℚ) := none
  confidence : Option Confidence := none
deriving DecidableEq, Repr

/-- Truthiness of an optional string field (`undefined` and `""` falsy). -/
def optTruthy : Option String → Bool
  | some s => if s = "" then false else true
  | none => false

/-- JS `s.includes("|")`. -/
def hasPipe (s : String) : Bool := s.data.any (fun c => c = pipeChar)

/-- Confidence score accumulation of `calculateConfidence`:
+2 website, +3 sources containing a `|`, +1 more than one source,
+1 rating defined, +1 address, +1 description. -/
def confidenceScore (result : AiSearchResult) : ℕ :=
  (if optTruthy result.website then 2 else 0) +
  (if 0 < ((result.sources.getD []).filter hasPipe).length then 3 else 0) +
  (if 1 < (match result.sources with | some l => l.length | none => 0) then 1 else 0) +
  (if result.rating ≠ none then 1 else 0) +
  (if optTruthy result.address then 1 else 0) +
  (if optTruthy result.description then 1 else 0)

/-- Translation of `calculateConfidence`. -/
def calculateConfidence (result : AiSearchResult) : Confidence :=
  if 7 ≤ confidenceScore result then .high
  else if 4 ≤ confidenceScore result then .medium
  else .low

/-- Source-entry filter of `validateAndCleanResult`: keep plain-text
sources; keep a `|`-containing source only if it splits into exactly two
trimmed parts and the URL part validates. -/
def keepSource (validation : String → Bool) (source : String) : Bool :=
  if ¬ hasPipe source then true
  else
    let parts := (jsSplit source pipeChar).map jsTrim
    if parts.length = 2 then validation (parts.getD 1 "") else false

/-- Website cleaning of `validateAndCleanResult`: a truthy website that
fails validation is removed. -/
def cleanWebsite (validation : String → Bool) (website : Option String) :
    Option String :=
  match website with
  | some w => if w ≠ "" ∧ ¬ validation w then none else some w
  | none => none

/-- Sources cleaning of `validateAndCleanResult`: filter, then drop the
array entirely when it came out empty. -/
def cleanSources (validation : String → Bool) (sources : Option (List String)) :
    Option (List String) :=
  match sources with
  | none => none
  | some l =>
    let f := l.filter (keepSource validation)
    if f.length = 0 then none else some f

/-- Intermediate cleaned record of `validateAndCleanResult` (website and
sources cleaned, confidence not yet recomputed). -/
def cleanedRecord (result : AiSearchResult) (validation : String → Bool) :
    AiSearchResult :=
  { result with
    website := cleanWebsite validation result.website,
    sources := cleanSources validation result.sources }

/-- Translation of `validateAndCleanResult`: clean website and sources,
then compute the confidence tier on the cleaned record. -/
def validateAndCleanResult (result : AiSearchResult) (validation : String → Bool) :
    AiSearchResult :=
  { cleanedRecord result validation with
    confidence := some (calculateConfidence (cleanedRecord result validation)) }

/-- A source entry that carries a verified URL: `"Name | URL"` shape
(exactly two trimmed parts around `|`) whose URL part validates. This is
the spec's wording of the +3 condition. -/
def verifiedUrlSource (validation : String → Bool) (source : String) : Bool :=
  hasPipe source &&
    (let parts := (jsSplit source pipeChar).map jsTrim
     parts.length = 2 && validation (parts.getD 1 ""))

/-- Confidence score as worded by the spec: the +3 term requires at least
one source carrying a verified URL (not merely a `|`). -/
def specConfidenceScore (result : AiSearchResult) (validation : String → Bool) : ℕ :=
  (if optTruthy result.website then 2 else 0) +
  (if (result.sources.getD []).any (verifiedUrlSource validation) then 3 else 0) +
  (if 1 < (match result.sources with | some l => l.length | none => 0) then 1 else 0) +
  (if result.rating ≠ none then 1 else 0) +
  (if optTruthy result.address then 1 else 0) +
  (if optTruthy result.description then 1 else 0)

/-- Tier thresholds as worded by the spec. -/
def specTier (score : ℕ) : Confidence :=
  if 7 ≤ score then .high else if 4 ≤ score then .medium else .low

theorem keepSource_pipe_verified (v : String → Bool) (s : String)
    (hk : keepSource v s = true) (hp : hasPipe s = true) :
    verifiedUrlSource v s = true := by
  by_cases hlen : ((jsSplit s pipeChar).map jsTrim).length = 2
  · have hv : v (((jsSplit s pipeChar).map jsTrim).getD 1 "") = true := by
      unfold keepSource at hk
      rw [if_neg (by simp [hp]), if_pos hlen] at hk
      exact hk
    unfold verifiedUrlSource
    rw [hp, Bool.true_and, Bool.and_eq_true_iff]
    exact ⟨decide_eq_true hlen, hv⟩
  · exfalso
    unfold keepSource at hk
    rw [if_neg (by simp [hp]), if_neg hlen] at hk
    exact Bool.false_ne_true hk

theorem verified_has_pipe (v : String → Bool) (s : String)
    (hv : verifiedUrlSource v s = true) : hasPipe s = true := by
  unfold verifiedUrlSource at hv
  exact (Bool.and_eq_true_iff.mp hv).1

theorem pipe_iff_verified (v : String → Bool) (xs : List String)
    (h : ∀ a ∈ xs, keepSource v a = true) :
    (0 < (xs.filter hasPipe).length) ↔ xs.any (verifiedUrlSource v) = true := by
  rw [List.length_pos, ne_eq, List.filter_eq_nil_iff, List.any_eq_true]
  constructor
  · intro hx
    push_neg at hx
    obtain ⟨a, ha, hpa⟩ := hx
    exact ⟨a, ha, keepSource_pipe_verified v a (h a ha) (by simpa using hpa)⟩
  · rintro ⟨a, ha, hva⟩ hall
    exact absurd (verified_has_pipe v a hva) (by simpa using hall a ha)

theorem cleanSources_pipe_iff (v : String → Bool) (src : Option (List String)) :
    (0 < (((cleanSources v src).getD []).filter hasPipe).length) ↔
      ((cleanSources v src).getD []).any (verifiedUrlSource v) = true := by
  cases src with
  | none => simp [cleanSources]
  | some l =>
    simp only [cleanSources]
    split
    · simp
    · exact pipe_iff_verified v (l.filter (keepSource v))
        (fun a ha => (List.mem_filter.mp ha).2)

/-- C8 example candidate: website, two verified-URL sources, rating,
address and description. -/
def richCandidate : AiSearchResult :=
  { name := "Cafe Verde", website := some "https://cafeverde.example",
    sources := some ["Reddit | https://reddit.com/r/x",
                     "Blog | https://blog.example/y"],
    rating := some 4, address := some "1 High St",
    description := some "Nice cafe" }

/-- C8 example candidate: a name and nothing else. -/
def nameOnlyCandidate : AiSearchResult := { name := "Cafe Verde" }

/-- C8: on the cleaned candidate produced by `validateAndCleanResult`, the
confidence tier equals the spec's scoring — +2 website, +3 at least one
source carrying a verified URL, +1 more than one source, +1 rating, +1
address, +1 description — with tier high iff score ≥ 7 and medium iff
4 ≤ score < 7; the rich example tiers high and the name-only example low. -/
theorem c8_confidence_scoring :
    (∀ (r : AiSearchResult) (v : String → Bool),
      (validateAndCleanResult r v).confidence =
        some (specTier (specConfidenceScore (validateAndCleanResult r v) v))) ∧
    (∀ n : ℕ, (specTier n = .high ↔ 7 ≤ n) ∧
      (specTier n = .medium ↔ 4 ≤ n ∧ n < 7)) ∧
    (validateAndCleanResult richCandidate (fun _ => true)).confidence =
      some .high ∧
    (validateAndCleanResult nameOnlyCandidate (fun _ => true)).confidence =
      some .low := by
  refine ⟨?_, ?_, by decide, by decide⟩
  · intro r v
    have hproj : specConfidenceScore (validateAndCleanResult r v) v =
        specConfidenceScore (cleanedRecord r v) v := rfl
    have hsrc : (cleanedRecord r v).sources = cleanSources v r.sources := rfl
    have hscore : confidenceScore (cleanedRecord r v) =
        specConfidenceScore (cleanedRecord r v) v := by
      unfold confidenceScore specConfidenceScore
      rw [hsrc, if_congr (cleanSources_pipe_iff v r.sources) rfl rfl]
    have hconf : (validateAndCleanResult r v).confidence =
        some (calculateConfidence (cleanedRecord r v)) := rfl
    rw [hconf, hproj, ← hscore]
    unfold calculateConfidence specTier
    rfl
  · intro n
    unfold specTier
    constructor
    · constructor
      · intro hh
        by_contra hn
        rw [if_neg hn] at hh
        split at hh <;> simp_all
      · intro hn; rw [if_pos hn]
    · constructor
      · intro hm
        by_cases h7 : 7 ≤ n
        · rw [if_pos h7] at hm; simp_all
        · by_cases h4 : 4 ≤ n
          · exact ⟨h4, by omega⟩
          · rw [if_neg h7, if_neg h4] at hm; simp_all
      · rintro ⟨h4, h7⟩
        rw [if_neg (by omega : ¬ 7 ≤ n), if_pos h4]

/-! Section: geodesic distance and the search route's radius filter
(packages/frontend/src/lib/geocoding.ts `getDistanceKm`, and the
geocode/filter steps of the GET handler in
packages/frontend/src/app/api/search/route.ts). JavaScript floating-point
trigonometry is idealized over the reals. -/

/-- Geographic coordinates (latitude, longitude) in degrees. -/
structure Coordinates where
  latitude : ℝ
  longitude : ℝ

/-- Degree-to-radian conversion `(value * Math.PI) / 180`. -/
noncomputable def toRad (value : ℝ) : ℝ := value * Real.pi / 180

/-- `Math.atan2`; `getDistanceKm` only invokes it with non-negative
arguments, where it agrees with `arctan (y / x)` for positive `x`. -/
noncomputable def atan2 (y x : ℝ) : ℝ :=
  if 0 < x then Real.arctan (y / x)
  else if x < 0 ∧ 0 ≤ y then Real.arctan (y / x) + Real.pi
  else if x < 0 ∧ y < 0 then Real.arctan (y / x) - Real.pi
  else if x = 0 ∧ 0 < y then Real.pi / 2
  else if x = 0 ∧ y < 0 then -(Real.pi / 2)
  else 0

/-- Translation of `getDistanceKm`: haversine distance with Earth radius
6371 km. -/
noncomputable def getDistanceKm (a b : Coordinates) : ℝ :=
  let earthRadiusKm : ℝ := 6371
  let dLat := toRad (b.latitude - a.latitude)
  let dLng := toRad (b.longitude - a.longitude)
  let lat1 := toRad a.latitude
  let lat2 := toRad b.latitude
  let haversine :=
    Real.sin (dLat / 2) * Real.sin (dLat / 2) +
      Real.sin (dLng / 2) * Real.sin (dLng / 2) * Real.cos lat1 * Real.cos lat2
  let c := 2 * atan2 (Real.sqrt haversine) (Real.sqrt (1 - haversine))
  earthRadiusKm * c

theorem getDistanceKm_self (p : Coordinates) : getDistanceKm p p = 0 := by
  unfold getDistanceKm toRad atan2
  simp [Real.sqrt_eq_zero]

theorem getDistanceKm_one_deg_lat (lat lng : ℝ) :
    getDistanceKm ⟨lat, lng⟩ ⟨lat + 1, lng⟩ = 6371 * (Real.pi / 180) := by
  have hpi := Real.pi_pos
  set θ : ℝ := Real.pi / 360 with hθ
  have hθpos : 0 < θ := by positivity
  have hθlt : θ < Real.pi / 2 := by rw [hθ]; linarith
  have hsin : 0 < Real.sin θ :=
    Real.sin_pos_of_pos_of_lt_pi hθpos (by linarith)
  have hcos : 0 < Real.cos θ :=
    Real.cos_pos_of_mem_Ioo ⟨by linarith, hθlt⟩
  unfold getDistanceKm toRad
  simp only [add_sub_cancel_left, sub_self]
  have h1 : (1 : ℝ) * Real.pi / 180 / 2 = θ := by rw [hθ]; ring
  have h0 : (0 : ℝ) * Real.pi / 180 / 2 = 0 := by ring
  rw [h1, h0, Real.sin_zero]
  have hhav : Real.sin θ * Real.sin θ +
      0 * 0 * Real.cos (lat * Real.pi / 180) * Real.cos ((lat + 1) * Real.pi / 180) =
      Real.sin θ * Real.sin θ := by ring
  rw [hhav]
  have hsqrt1 : Real.sqrt (Real.sin θ * Real.sin θ) = Real.sin θ :=
    Real.sqrt_mul_self hsin.le
  have hsub : 1 - Real.sin θ * Real.sin θ = Real.cos θ * Real.cos θ := by
    have := Real.sin_sq_add_cos_sq θ
    nlinarith [this]
  have hsqrt2 : Real.sqrt (1 - Real.sin θ * Real.sin θ) = Real.cos θ := by
    rw [hsub]; exact Real.sqrt_mul_self hcos.le
  rw [hsqrt1, hsqrt2]
  unfold atan2
  rw [if_pos hcos]
  have htan : Real.sin θ / Real.cos θ = Real.tan θ :=
    (Real.tan_eq_sin_div_cos θ).symm
  rw [htan, Real.arctan_tan (by linarith) hθlt]
  rw [hθ]; ring

/-- Result record as handled by the search route after validation. -/
structure RouteResult where
  id : Option String := none
  name : String := ""
  description : Option String := none
  address : Option String := none
  coordinates : Option Coordinates := none

/-- `RESULT_LIMIT` from lib/constants.ts. -/
def RESULT_LIMIT : ℕ := 20

/-- Geocoding enrichment step of the route GET handler: a result with a
truthy address and no coordinates gets the geocoder's answer; a failed or
empty geocode leaves coordinates unset. The external geocoder is a
parameter. -/
def geocodeStep (geocode : String → Option Coordinates) :
    List RouteResult → List RouteResult :=
  List.map fun result =>
    match result.address, result.coordinates with
    | some addr, none =>
      if addr = "" then result
      else
        match geocode addr with
        | some coords => { result with coordinates := some coords }
        | none => result
    | _, _ => result

/-- Distance filter of the route GET handler (run only when a user
location is known): drop results without coordinates, keep those within
`radius` km. The deployed radius is `SEARCH_RADIUS_KM` (20 in
lib/constants.ts; an earlier route revision used a local constant 10). -/
noncomputable def distanceFilter (userLocation : Coordinates) (radius : ℝ)
    (results : List RouteResult) : List RouteResult :=
  results.filter fun result =>
    match result.coordinates with
    | none => false
    | some coords =>
      @decide (getDistanceKm userLocation coords ≤ radius) (Classical.propDecidable _)

/-- The route pipeline tail relevant to the radius invariant: truncate,
geocode-enrich, then distance-filter against the known origin. -/
noncomputable def routeEnrichAndFilter (geocode : String → Option Coordinates)
    (userLocation : Coordinates) (radius : ℝ) (results : List RouteResult) :
    List RouteResult :=
  distanceFilter userLocation radius
    (geocodeStep geocode (results.take RESULT_LIMIT))

/-- C5: when an origin is known, every candidate in the delivered route
result list has resolved coordinates within the active radius of the
origin (haversine distance), and every candidate whose coordinates never
resolved is excluded from the delivered list. -/
theorem c5_radius_invariant (geocode : String → Option Coordinates)
    (userLocation : Coordinates) (radius : ℝ) (results : List RouteResult) :
    (∀ r ∈ routeEnrichAndFilter geocode userLocation radius results,
      ∃ c, r.coordinates = some c ∧ getDistanceKm userLocation c ≤ radius) ∧
    (∀ r : RouteResult, r.coordinates = none →
      r ∉ routeEnrichAndFilter geocode userLocation radius results) := by
  constructor
  · intro r hr
    have hp := (List.mem_filter.mp hr).2
    cases hco : r.coordinates with
    | none =>
      rw [hco] at hp
      exact absurd hp (by simp)
    | some c =>
      rw [hco] at hp
      exact ⟨c, rfl, of_decide_eq_true hp⟩
  · intro r hco hr
    have hp := (List.mem_filter.mp hr).2
    rw [hco] at hp
    exact Bool.false_ne_true hp

/-- C5 witness data: one candidate sitting exactly at the origin. -/
def c5Origin : Coordinates := ⟨0, 0⟩

/-- C5 witness candidate. -/
def c5Result : RouteResult := { name := "A", coordinates := some ⟨0, 0⟩ }

theorem c5_radius_invariant_witness :
    ∃ c, c5Result.coordinates = some c ∧ getDistanceKm c5Origin c ≤ 20 :=
  (c5_radius_invariant (fun _ => none) c5Origin 20 [c5Result]).1 c5Result (by
    unfold routeEnrichAndFilter distanceFilter geocodeStep RESULT_LIMIT
    apply List.mem_filter.mpr
    refine ⟨by simp [c5Result], decide_eq_true ?_⟩
    rw [show getDistanceKm c5Origin ⟨0, 0⟩ = 0 from getDistanceKm_self c5Origin]
    norm_num)

/-- C9: the haversine distance vanishes on every identical pair; two
points one degree of latitude apart at equal longitude are about 111 km
apart, hence strictly farther than 10 km, and such a point is always
excluded by the 10 km distance filter. -/
theorem c9_haversine_properties :
    (∀ p : Coordinates, getDistanceKm p p = 0) ∧
    (∀ lat lng : ℝ, 10 < getDistanceKm ⟨lat, lng⟩ ⟨lat + 1, lng⟩) ∧
    (∀ (lat lng : ℝ) (rs : List RouteResult) (nm : String),
      ({ name := nm, coordinates := some ⟨lat + 1, lng⟩ } : RouteResult) ∉
        distanceFilter ⟨lat, lng⟩ 10 rs) := by
  have hgt : ∀ lat lng : ℝ, 10 < getDistanceKm ⟨lat, lng⟩ ⟨lat + 1, lng⟩ := by
    intro lat lng
    rw [getDistanceKm_one_deg_lat]
    nlinarith [Real.pi_gt_d6]
  refine ⟨getDistanceKm_self, hgt, ?_⟩
  intro lat lng rs nm hmem
  have hp := (List.mem_filter.mp hmem).2
  have hle : getDistanceKm ⟨lat, lng⟩ ⟨lat + 1, lng⟩ ≤ 10 := of_decide_eq_true hp
  linarith [hgt lat lng]

/-! Section: the client search coordinator. MapSearch.tsx holds the cache,
the monotone `latestSearchId` counter, and the visible result state; its
`onSubmit` handler and the continuation of `performSearch` after the two
fetches resolve are modelled as pure state transformers on `CoordState`.
The repository carries two revisions of the component: the named
MapSearch.tsx (whose submit path does not return early on a cache hit) and
a variant, called part_006 below, which returns early on a cache hit and
threads an AbortSignal. Their post-fetch completion logic is identical. -/

/-- Distance filter entry of a parsed query (`{value, unit}`). -/
structure DistanceFilter where
  value : ℚ
  unit : String
deriving DecidableEq, Repr

/-- Parsed-query filters as read by `formatParsedQueryDescription`. -/
structure QueryFilters where
  cuisine : List String := []
  priceRange : Option String := none
  openNow : Bool := false
  rating : Option ℚ := none
  amenities : List String := []
  distance : Option DistanceFilter := none
deriving DecidableEq, Repr

/-- The parsed query as consumed by the client (searchTerm plus the
description-relevant context fields). -/
structure ClientParsedQuery where
  searchTerm : String
  area : Option String := none
  coordinates : Option (ℚ × ℚ) := none
  ctype : Option String := none
  filters : Option QueryFilters := none
deriving DecidableEq, Repr

/-- Translation of `formatParsedQueryDescription` from
lib/searchHelpers.ts: push one part per truthy field, join with a middle
dot, fall back to a fixed message. -/
def formatParsedQueryDescription (pq : ClientParsedQuery) : String :=
  let typeParts := match pq.ctype with
    | some t => if t = "" then [] else ["Type: " ++ t]
    | none => []
  let areaParts := match pq.area with
    | some a => if a = "" then [] else ["Area: " ++ a]
    | none => []
  let priceParts := match pq.filters with
    | some fl =>
      (match fl.priceRange with
       | some p => if p = "" then [] else ["Price: " ++ p]
       | none => [])
    | none => []
  let openParts := match pq.filters with
    | some fl => if fl.openNow then ["Open now"] else []
    | none => []
  let ratingParts := match pq.filters with
    | some fl =>
      (match fl.rating with
       | some r => if r = 0 then [] else ["Rating: " ++ toString r ++ "+"]
       | none => [])
    | none => []
  let cuisineParts := match pq.filters with
    | some fl =>
      if fl.cuisine.length = 0 then []
      else ["Cuisine: " ++ String.intercalate ", " fl.cuisine]
    | none => []
  let amenitiesParts := match pq.filters with
    | some fl =>
      if fl.amenities.length = 0 then []
      else ["Amenities: " ++ String.intercalate ", " fl.amenities]
    | none => []
  let distanceParts := match pq.filters with
    | some fl =>
      (match fl.distance with
       | some d => ["Within " ++ toString d.value ++ " " ++ d.unit]
       | none => [])
    | none => []
  let parts := typeParts ++ areaParts ++ priceParts ++ openParts ++
    ratingParts ++ cuisineParts ++ amenitiesParts ++ distanceParts
  if parts.length = 0 then "No filters detected"
  else String.intercalate " · " parts

/-- Result kinds of the client `SearchResult` union. -/
inductive RType where
  | station
  | place
  | intent
deriving DecidableEq, Repr

/-- A client search-result entry (the `SearchResult` union of
lib/searchTypes.ts flattened; `rtype` is the `type` discriminator).
Client coordinates are `[longitude, latitude]` pairs. -/
structure SRItem where
  id : String
  name : String
  description : String
  rtype : RType
  coordinates : Option (ℚ × ℚ) := none
  address : Option String := none
  photoUrl : Option String := none
  rating : Option ℚ := none
  priceRange : Option String := none
  website : Option String := none
  phone : Option String := none
  sources : Option (List String) := none
deriving DecidableEq, Repr

/-- An entry of `aiData.results` as the client reads it
(coordinates are `{latitude, longitude}`). -/
structure ClientAiResult where
  id : Option String := none
  name : String := ""
  description : Option String := none
  address : Option String := none
  photoUrl : Option String := none
  rating : Option ℚ := none
  priceRange : Option String := none
  website : Option String := none
  phone : Option String := none
  sources : Option (List String) := none
  coordinates : Option (ℚ × ℚ) := none
deriving DecidableEq, Repr

/-- The `/api/search` response body as the client reads it. -/
structure AiData where
  parsedQuery : ClientParsedQuery
  results : List ClientAiResult
deriving DecidableEq, Repr

/-- JS `a || b` for an optional string and a default. -/
def jsOrStr : Option String → String → String
  | some s, b => if s = "" then b else s
  | none, b => b

/-- JS `a || b` for two strings. -/
def jsOrStr2 (a b : String) : String := if a = "" then b else a

/-- Mapping of one AI result to a place entry (MapSearch `performSearch`):
synthesize `place-{index}` ids, default the description, and swap
coordinates into `[longitude, latitude]` order. -/
def toPlaceItem (index : ℕ) (result : ClientAiResult) : SRItem :=
  { id := jsOrStr result.id ("place-" ++ toString index),
    name := result.name,
    description := jsOrStr result.description
      (jsOrStr result.address "Suggested place"),
    address := result.address,
    photoUrl := result.photoUrl,
    rating := result.rating,
    priceRange := result.priceRange,
    website := result.website,
    phone := result.phone,
    sources := result.sources,
    coordinates := match result.coordinates with
      | some c => some (c.2, c.1)
      | none => none,
    rtype := .place }

/-- A station feature of the Station Directory snapshot: `name` is the
directory name used for matching, `displayName` the cartography display
label used for rendering; they can differ. -/
structure Station where
  id : String
  name : String
  displayName : Option String := none
  zone : Option String := none
  coordinates : ℚ × ℚ
deriving DecidableEq, Repr

/-- Station filter of `performSearch`: case-insensitive substring match of
the effective query against the station's directory `name` field,
capped at 3 matches. -/
def stationMatches (effectiveQuery : String) (stations : List Station) :
    List Station :=
  (stations.filter fun f =>
    jsIncludes (jsToLower f.name) (jsToLower effectiveQuery)).take 3

/-- Mapping of a matched station to a result entry; the rendered name is
`displayName || name`. -/
def toStationItem (f : Station) : SRItem :=
  { id := "station-" ++ f.id,
    name := jsOrStr f.displayName f.name,
    description := "Underground Station · Zone " ++ jsOrStr f.zone "N/A",
    coordinates := some f.coordinates,
    rtype := .station }

/-- Merged result list of `performSearch`: AI places in provider order,
then the capped station matches, truncated to `RESULT_LIMIT`. -/
def mergeResults (aiResults : List ClientAiResult) (stations : List Station)
    (effectiveQuery : String) : List SRItem :=
  (aiResults.mapIdx toPlaceItem ++
    (stationMatches effectiveQuery stations).map toStationItem).take RESULT_LIMIT

/-- The intent header entry built by `performSearch`. -/
def mkIntentItem (aiData : AiData) (searchQuery : String) : SRItem :=
  { id := "intent",
    name := "Search: " ++ jsOrStr2 aiData.parsedQuery.searchTerm searchQuery,
    description := formatParsedQueryDescription aiData.parsedQuery,
    rtype := .intent }

/-- The effective query of `performSearch`:
`(aiData.parsedQuery.searchTerm || searchQuery).trim()`. -/
def effQuery (aiData : AiData) (searchQuery : String) : String :=
  jsTrim (jsOrStr2 aiData.parsedQuery.searchTerm searchQuery)

/-- Cache entry: results plus the intent header. -/
structure CacheEntry where
  results : List SRItem
  intent : Option SRItem
deriving DecidableEq, Repr

/-- `Map.get` on the query cache. -/
def cacheGet : List (String × CacheEntry) → String → Option CacheEntry
  | [], _ => none
  | (k, e) :: rest, key => if k = key then some e else cacheGet rest key

/-- `Map.set` on the query cache (insert or overwrite). -/
def cacheSet : List (String × CacheEntry) → String → CacheEntry →
    List (String × CacheEntry)
  | [], key, entry => [(key, entry)]
  | (k, e) :: rest, key, entry =>
    if k = key then (key, entry) :: rest
    else (k, e) :: cacheSet rest key entry

/-- Coordinator state of the MapSearch component: the monotone counter,
the query cache, and the visible React state. -/
structure CoordState where
  latestSearchId : ℕ
  cache : List (String × CacheEntry)
  results : List SRItem
  intentResult : Option SRItem
  selectedResult : Option SRItem
  emptyStateQuery : Option String
  isSearching : Bool
  showResults : Bool
deriving DecidableEq, Repr

/-- A pending search issued by a submit: the fetch arguments passed to
`performSearch`. -/
structure Pending where
  searchQuery : String
  cacheKey : String
  searchId : ℕ
deriving DecidableEq, Repr

/-- Try-block continuation of `performSearch` after both fetches resolved
(MapSearch.tsx lines 88-165): build the intent entry, derive the effective
query, merge, and apply the visible state and cache writes only when this
search is still the latest one. -/
def completeSearchBody (st : CoordState) (searchId : ℕ)
    (cacheKey searchQuery : String) (aiData : AiData)
    (stations : List Station) : CoordState :=
  let intent := mkIntentItem aiData searchQuery
  let effectiveQuery := effQuery aiData searchQuery
  if effectiveQuery = "" then
    if searchId ≠ st.latestSearchId then st
    else { st with intentResult := some intent, results := [],
                   emptyStateQuery := some cacheKey, showResults := true }
  else
    let nextResults := mergeResults aiData.results stations effectiveQuery
    if searchId ≠ st.latestSearchId then st
    else
      let st1 := { st with intentResult := some intent,
                           results := nextResults,
                           selectedResult := none, showResults := true }
      if 0 < nextResults.length then
        { st1 with
            cache := cacheSet st1.cache cacheKey ⟨nextResults, some intent⟩,
            emptyStateQuery := none }
      else { st1 with emptyStateQuery := some cacheKey }

/-- Full completion of `performSearch` on resolved fetches: the try block
followed by the `finally` clause, which clears the spinner only when the
search is still the latest one. -/
def completeSearch (st : CoordState) (searchId : ℕ)
    (cacheKey searchQuery : String) (aiData : AiData)
    (stations : List Station) : CoordState :=
  let afterBody := completeSearchBody st searchId cacheKey searchQuery aiData stations
  if searchId = afterBody.latestSearchId then
    { afterBody with isSearching := false }
  else afterBody

/-- The catch/finally path of `performSearch` when the `Promise.all`
rejects: the error is logged only; the spinner is cleared when this search
is still the latest one. -/
def completeFail (st : CoordState) (searchId : ℕ) : CoordState :=
  if searchId = st.latestSearchId then { st with isSearching := false }
  else st

/-- Outcome of one `performSearch` run given the settlement of its two
fetches: `Promise.all` resolves only when both fetches resolve, and
rejects (entering the catch path) as soon as either rejects. -/
def performSearchOutcome (st : CoordState) (searchId : ℕ)
    (cacheKey searchQuery : String)
    (stationsFetch : Except Unit (List Station))
    (aiFetch : Except Unit AiData) : CoordState :=
  match stationsFetch, aiFetch with
  | .ok stations, .ok aiData =>
    completeSearch st searchId cacheKey searchQuery aiData stations
  | _, _ => completeFail st searchId

/-- Submit handler of the named MapSearch.tsx: on a cache hit the cached
entry is displayed, but the handler falls through, allocates a fresh
sequence id and still starts `performSearch`. -/
def submitTsx (st : CoordState) (query : String) :
    CoordState × Option Pending :=
  let trimmedQuery := jsTrim query
  let cacheKey := jsToLower trimmedQuery
  if trimmedQuery = "" then
    ({ st with showResults := false, selectedResult := none }, none)
  else
    let st1 :=
      match cacheGet st.cache cacheKey with
      | some cached =>
        { st with results := cached.results, intentResult := cached.intent,
                  showResults := true, selectedResult := none }
      | none => st
    let st2 := { st1 with emptyStateQuery := none, isSearching := true,
                          showResults := true, selectedResult := none,
                          latestSearchId := st1.latestSearchId + 1 }
    (st2, some ⟨trimmedQuery, cacheKey, st2.latestSearchId⟩)

/-- Submit handler of the part_006 variant: a cache hit displays the
cached entry and returns without starting a search; a miss clears the
visible results and starts a fresh search. -/
def submitP6 (st : CoordState) (query : String) :
    CoordState × Option Pending :=
  let trimmedQuery := jsTrim query
  let cacheKey := jsToLower trimmedQuery
  if trimmedQuery = "" then
    ({ st with showResults := false, selectedResult := none }, none)
  else
    match cacheGet st.cache cacheKey with
    | some cached =>
      ({ st with results := cached.results, intentResult := cached.intent,
                 showResults := true, selectedResult := none }, none)
    | none =>
      let st1 := { st with results := [], intentResult := none,
                           emptyStateQuery := none, isSearching := true,
                           showResults := true, selectedResult := none,
                           latestSearchId := st.latestSearchId + 1 }
      (st1, some ⟨trimmedQuery, cacheKey, st1.latestSearchId⟩)

/-- Coordinator events: a submit through either handler variant, a search
completion (both fetches resolved), or a failed search (a fetch rejected). -/
inductive Event where
  | submitTsxEv (query : String)
  | submitP6Ev (query : String)
  | completeEv (searchId : ℕ) (cacheKey searchQuery : String)
      (ai : AiData) (stations : List Station)
  | failEv (searchId : ℕ)

/-- One coordinator step. -/
def stepEvent (st : CoordState) : Event → CoordState
  | .submitTsxEv q => (submitTsx st q).1
  | .submitP6Ev q => (submitP6 st q).1
  | .completeEv sid ck sq ai stns => completeSearch st sid ck sq ai stns
  | .failEv sid => completeFail st sid

/-- Running a list of coordinator events. -/
def runTrace (st : CoordState) : List Event → CoordState
  | [] => st
  | e :: rest => runTrace (stepEvent st e) rest

theorem completeSearchBody_latest (st : CoordState) (sid : ℕ) (ck sq : String)
    (ai : AiData) (stns : List Station) :
    (completeSearchBody st sid ck sq ai stns).latestSearchId =
      st.latestSearchId := by
  unfold completeSearchBody
  dsimp only
  split
  · split <;> rfl
  · split
    · rfl
    · split <;> rfl

theorem completeSearch_latest (st : CoordState) (sid : ℕ) (ck sq : String)
    (ai : AiData) (stns : List Station) :
    (completeSearch st sid ck sq ai stns).latestSearchId =
      st.latestSearchId := by
  unfold completeSearch
  dsimp only
  split
  · exact completeSearchBody_latest st sid ck sq ai stns
  · exact completeSearchBody_latest st sid ck sq ai stns

theorem completeFail_latest (st : CoordState) (sid : ℕ) :
    (completeFail st sid).latestSearchId = st.latestSearchId := by
  unfold completeFail
  split <;> rfl

theorem completeSearchBody_stale (st : CoordState) (sid : ℕ) (ck sq : String)
    (ai : AiData) (stns : List Station) (h : sid ≠ st.latestSearchId) :
    completeSearchBody st sid ck sq ai stns = st := by
  simp [completeSearchBody, h]

theorem completeSearch_stale (st : CoordState) (sid : ℕ) (ck sq : String)
    (ai : AiData) (stns : List Station) (h : sid ≠ st.latestSearchId) :
    completeSearch st sid ck sq ai stns = st := by
  unfold completeSearch
  rw [completeSearchBody_stale st sid ck sq ai stns h, if_neg h]

theorem submitTsx_cache (st : CoordState) (q : String) :
    (submitTsx st q).1.cache = st.cache := by
  unfold submitTsx
  dsimp only
  split
  · rfl
  · split <;> rfl

theorem submitP6_cache (st : CoordState) (q : String) :
    (submitP6 st q).1.cache = st.cache := by
  unfold submitP6
  dsimp only
  split
  · rfl
  · split <;> rfl

theorem completeFail_cache (st : CoordState) (sid : ℕ) :
    (completeFail st sid).cache = st.cache := by
  unfold completeFail
  split <;> rfl

theorem completeFail_results (st : CoordState) (sid : ℕ) :
    (completeFail st sid).results = st.results := by
  unfold completeFail
  split <;> rfl

theorem stepEvent_latest_mono (st : CoordState) (e : Event) :
    st.latestSearchId ≤ (stepEvent st e).latestSearchId := by
  cases e with
  | submitTsxEv q =>
    unfold stepEvent submitTsx
    dsimp only
    split
    · exact le_refl _
    · split
      · exact Nat.le_succ _
      · exact Nat.le_succ _
  | submitP6Ev q =>
    unfold stepEvent submitP6
    dsimp only
    split
    · exact le_refl _
    · split
      · exact le_refl _
      · exact Nat.le_succ _
  | completeEv sid ck sq ai stns =>
    exact le_of_eq (completeSearch_latest st sid ck sq ai stns).symm
  | failEv sid =>
    exact le_of_eq (completeFail_latest st sid).symm

theorem runTrace_latest_mono (tr : List Event) :
    ∀ st : CoordState, st.latestSearchId ≤ (runTrace st tr).latestSearchId := by
  induction tr with
  | nil => exact fun st => le_refl _
  | cons e rest ih =>
    intro st
    exact le_trans (stepEvent_latest_mono st e) (ih (stepEvent st e))

theorem submitTsx_latest_of_issue (st : CoordState) (q : String)
    (hq : ¬ jsTrim q = "") :
    (stepEvent st (.submitTsxEv q)).latestSearchId = st.latestSearchId + 1 := by
  unfold stepEvent submitTsx
  dsimp only
  rw [if_neg hq]
  split <;> rfl

theorem runTrace_append (tr1 tr2 : List Event) :
    ∀ st : CoordState, runTrace st (tr1 ++ tr2) = runTrace (runTrace st tr1) tr2 := by
  induction tr1 with
  | nil => exact fun st => rfl
  | cons e rest ih =>
    intro st
    show runTrace (stepEvent st e) (rest ++ tr2) = _
    exact ih (stepEvent st e)

/-- C1: the sequence guard. A completion whose search id differs from the
coordinator's latest issued id is a complete no-op (no visible state
mutation, no cache write, not even the spinner); the latest issued id
never decreases across any coordinator event; and concretely, if request A
was issued no later than some point and request B is submitted afterwards
(before A's fetch resolves), then A's completion — at any later point —
leaves the state exactly unchanged, so only the newest request's result is
ever materialized. -/
theorem c1_sequence_guard :
    (∀ (st : CoordState) (sid : ℕ) (ck sq : String) (ai : AiData)
        (stns : List Station), sid ≠ st.latestSearchId →
      completeSearch st sid ck sq ai stns = st) ∧
    (∀ (st : CoordState) (e : Event),
      st.latestSearchId ≤ (stepEvent st e).latestSearchId) ∧
    (∀ (st : CoordState) (tr1 : List Event) (qB : String) (tr2 : List Event)
        (sid : ℕ) (ck sq : String) (ai : AiData) (stns : List Station),
      sid ≤ (runTrace st tr1).latestSearchId → ¬ jsTrim qB = "" →
      completeSearch (runTrace st (tr1 ++ Event.submitTsxEv qB :: tr2))
          sid ck sq ai stns =
        runTrace st (tr1 ++ Event.submitTsxEv qB :: tr2)) := by
  refine ⟨completeSearch_stale, stepEvent_latest_mono, ?_⟩
  intro st tr1 qB tr2 sid ck sq ai stns hsid hqB
  have hrw : runTrace st (tr1 ++ Event.submitTsxEv qB :: tr2) =
      runTrace (stepEvent (runTrace st tr1) (Event.submitTsxEv qB)) tr2 := by
    rw [runTrace_append]
    rfl
  have hstep := submitTsx_latest_of_issue (runTrace st tr1) qB hqB
  have hmono := runTrace_latest_mono tr2
    (stepEvent (runTrace st tr1) (Event.submitTsxEv qB))
  have hne : sid ≠
      (runTrace st (tr1 ++ Event.submitTsxEv qB :: tr2)).latestSearchId := by
    rw [hrw]
    omega
  exact completeSearch_stale _ sid ck sq ai stns hne

/-- C1 witness state: fresh coordinator. -/
def c1State : CoordState :=
  { latestSearchId := 0, cache := [], results := [], intentResult := none,
    selectedResult := none, emptyStateQuery := none, isSearching := false,
    showResults := false }

/-- Minimal AI payload used in concrete coordinator scenarios. -/
def c1Ai : AiData := ⟨{ searchTerm := "x" }, []⟩

theorem c1_sequence_guard_witness :
    completeSearch (runTrace c1State ([] ++ Event.submitTsxEv "b" :: []))
        0 "k" "q" c1Ai [] =
      runTrace c1State ([] ++ Event.submitTsxEv "b" :: []) :=
  c1_sequence_guard.2.2 c1State [] "b" [] 0 "k" "q" c1Ai []
    (by decide) (by decide)

/-- C6 amended: the merged list is the AI candidates in provider order
followed by the station matches capped at 3, truncated to `RESULT_LIMIT`;
but a station matches by case-insensitive substring of the effective query
against the directory `name` field (the rendered title `displayName ||
name` plays no role in matching). -/
theorem c6_merge_policy :
    (∀ (ai : List ClientAiResult) (stns : List Station) (q : String),
      mergeResults ai stns q =
        (ai.mapIdx toPlaceItem ++
          (stationMatches q stns).map toStationItem).take RESULT_LIMIT) ∧
    (∀ (q : String) (stns : List Station),
      (stationMatches q stns).length ≤ 3) ∧
    (∀ (q : String) (stns : List Station) (f : Station),
      f ∈ stationMatches q stns →
        f ∈ stns ∧ jsIncludes (jsToLower f.name) (jsToLower q) = true) ∧
    (∀ (ai : List ClientAiResult) (stns : List Station) (q : String),
      (mergeResults ai stns q).length ≤ RESULT_LIMIT) := by
  refine ⟨fun _ _ _ => rfl, ?_, ?_, ?_⟩
  · intro q stns
    exact List.length_take_le 3 _
  · intro q stns f hf
    have hmem := List.mem_of_mem_take hf
    exact ⟨(List.mem_filter.mp hmem).1, (List.mem_filter.mp hmem).2⟩
  · intro ai stns q
    exact List.length_take_le _ _

/-- C6 witness station. -/
def c6WitnessStation : Station :=
  { id := "7", name := "Victoria", coordinates := (0, 0) }

theorem c6_merge_policy_witness :
    c6WitnessStation ∈ [c6WitnessStation] ∧
      jsIncludes (jsToLower c6WitnessStation.name) (jsToLower "vic") = true :=
  c6_merge_policy.2.2.1 "vic" [c6WitnessStation] c6WitnessStation (by decide)

/-- C6 counterexample station: the rendered display name differs from the
directory name. -/
def c6Station : Station :=
  { id := "1", name := "aaa", displayName := some "Bbb", coordinates := (0, 0) }

/-- C6 counterexample: the claim says a station matches exactly when its
display name contains the term; here the display name `"Bbb"` contains the
term `"bbb"` case-insensitively, yet the merged list is empty because the
code matches against the directory `name` field `"aaa"` instead. -/
theorem c6_display_name_mismatch :
    jsIncludes (jsToLower (jsOrStr c6Station.displayName c6Station.name))
        (jsToLower "bbb") = true ∧
      mergeResults [] [c6Station] "bbb" = [] := by decide

/-- C3 cache entry used in the concrete cache-hit scenario. -/
def c3Item : SRItem :=
  { id := "place-0", name := "Sushi Spot", description := "d", rtype := .place }

/-- C3 cached entry. -/
def c3Entry : CacheEntry := ⟨[c3Item], none⟩

/-- C3 state whose cache already holds the key `"sushi"`. -/
def c3State : CoordState :=
  { latestSearchId := 0, cache := [("sushi", c3Entry)], results := [],
    intentResult := none, selectedResult := none, emptyStateQuery := none,
    isSearching := false, showResults := false }

/-- C3 counterexample: the claim says a cache-hit submit issues no new
network activity, but the MapSearch.tsx submit handler falls through after
displaying the cached entry: it allocates sequence id 1 and returns a
pending search, i.e. `performSearch` (Station Directory fetch + Intent
Service call) still runs. -/
theorem c3_cache_hit_still_fetches :
    cacheGet c3State.cache "sushi" = some c3Entry ∧
      (submitTsx c3State "Sushi").2 = some ⟨"Sushi", "sushi", 1⟩ := by decide

/-- C3 amended: on a cache hit both submit variants immediately display
the cached results and intent; the part_006 variant returns without
issuing any new fetch, while the named MapSearch.tsx variant still issues
a revalidating fetch under a fresh sequence id. -/
theorem c3_cache_hit_behaviour (st : CoordState) (q : String) (e : CacheEntry)
    (hq : ¬ jsTrim q = "")
    (hc : cacheGet st.cache (jsToLower (jsTrim q)) = some e) :
    ((submitP6 st q).1.results = e.results ∧
     (submitP6 st q).1.intentResult = e.intent ∧
     (submitP6 st q).2 = none) ∧
    ((submitTsx st q).1.results = e.results ∧
     (submitTsx st q).1.intentResult = e.intent ∧
     (submitTsx st q).2 =
       some ⟨jsTrim q, jsToLower (jsTrim q), st.latestSearchId + 1⟩) := by
  unfold submitP6 submitTsx
  dsimp only
  rw [if_neg hq, if_neg hq, hc]
  exact ⟨⟨rfl, rfl, rfl⟩, ⟨rfl, rfl, rfl⟩⟩

theorem c3_cache_hit_behaviour_witness :
    ((submitP6 c3State "Sushi").1.results = c3Entry.results ∧
     (submitP6 c3State "Sushi").1.intentResult = c3Entry.intent ∧
     (submitP6 c3State "Sushi").2 = none) ∧
    ((submitTsx c3State "Sushi").1.results = c3Entry.results ∧
     (submitTsx c3State "Sushi").1.intentResult = c3Entry.intent ∧
     (submitTsx c3State "Sushi").2 =
       some ⟨jsTrim "Sushi", jsToLower (jsTrim "Sushi"),
             c3State.latestSearchId + 1⟩) :=
  c3_cache_hit_behaviour c3State "Sushi" c3Entry (by decide) (by decide)

/-- Fallback response of the search route (`buildFallback`): the raw query
echoed as the search term with no candidates. -/
def clientFallback (query : String) (loc : Option (ℚ × ℚ)) : AiData :=
  ⟨{ searchTerm := query, coordinates := loc }, []⟩

/-- The try/catch wrapper of the route GET handler: any error inside the
handler (Intent provider failure included) resolves to the fallback
response rather than propagating to the client. -/
def routeCatch (attempt : Except Unit AiData) (query : String)
    (loc : Option (ℚ × ℚ)) : AiData :=
  match attempt with
  | .ok d => d
  | .error _ => clientFallback query loc

theorem mergeResults_no_ai (stns : List Station) (q : String) :
    mergeResults [] stns q = (stationMatches q stns).map toStationItem := by
  unfold mergeResults
  rw [List.mapIdx_nil, List.nil_append]
  apply List.take_of_length_le
  rw [List.length_map]
  exact le_trans (List.length_take_le 3 _) (by norm_num [RESULT_LIMIT])

theorem completeSearch_results_current (st : CoordState) (ck sq : String)
    (ai : AiData) (stns : List Station) (h : ¬ effQuery ai sq = "") :
    (completeSearch st st.latestSearchId ck sq ai stns).results =
      mergeResults ai.results stns (effQuery ai sq) := by
  have hbody : (completeSearchBody st st.latestSearchId ck sq ai stns).results =
      mergeResults ai.results stns (effQuery ai sq) := by
    unfold completeSearchBody
    dsimp only
    rw [if_neg h,
      if_neg (fun hcon : st.latestSearchId ≠ st.latestSearchId => hcon rfl)]
    split <;> rfl
  unfold completeSearch
  dsimp only
  split
  · exact hbody
  · exact hbody

/-- C4 counterexample state. -/
def c4State : CoordState :=
  { latestSearchId := 1, cache := [], results := [], intentResult := none,
    selectedResult := none, emptyStateQuery := none, isSearching := true,
    showResults := true }

/-- C4 counterexample station: it would match the query `"victoria"`. -/
def c4Station : Station := { id := "2", name := "victoria", coordinates := (1, 2) }

/-- C4 counterexample: the stations fetch resolved with a matching station
while the Intent fetch rejected; `Promise.all` is fail-fast, so the whole
search lands in the catch path and nothing is delivered — the purely local
station match does not appear, contradicting the claim that only the
failing sub-result is degraded. -/
theorem c4_rejection_blocks_sibling :
    performSearchOutcome c4State 1 "victoria" "victoria"
        (.ok [c4Station]) (.error ()) = { c4State with isSearching := false } ∧
      (performSearchOutcome c4State 1 "victoria" "victoria"
        (.ok [c4Station]) (.error ())).results = [] := by decide

/-- C4 amended: a rejection of either client fetch makes `Promise.all`
reject, so the whole search completes through the catch path, delivering
no results and touching no cache (only the spinner is reset when current).
Independent degradation instead happens one level down: the route's
try/catch absorbs Intent provider failures into the fallback response, and
when the client receives that fallback, the purely local station substring
matches still appear in the delivered result list. -/
theorem c4_failure_handling :
    (∀ (st : CoordState) (sid : ℕ) (ck sq : String)
        (stR : Except Unit (List Station)) (er : Unit),
      performSearchOutcome st sid ck sq stR (.error er) = completeFail st sid) ∧
    (∀ (st : CoordState) (sid : ℕ) (ck sq : String)
        (aiR : Except Unit AiData) (er : Unit),
      performSearchOutcome st sid ck sq (.error er) aiR = completeFail st sid) ∧
    (∀ (st : CoordState) (sid : ℕ),
      (completeFail st sid).results = st.results ∧
      (completeFail st sid).cache = st.cache) ∧
    (∀ (er : Unit) (q : String) (loc : Option (ℚ × ℚ)),
      routeCatch (.error er) q loc = clientFallback q loc) ∧
    (∀ (st : CoordState) (ck q : String) (loc : Option (ℚ × ℚ))
        (stns : List Station), jsTrim q = q → ¬ q = "" →
      (completeSearch st st.latestSearchId ck q (clientFallback q loc)
          stns).results = (stationMatches q stns).map toStationItem) := by
  refine ⟨?_, ?_,
    fun st sid => ⟨completeFail_results st sid, completeFail_cache st sid⟩,
    fun _ _ _ => rfl, ?_⟩
  · intro st sid ck sq stR er
    cases stR <;> rfl
  · intro st sid ck sq aiR er
    cases aiR <;> rfl
  · intro st ck q loc stns hqt hq
    have heff : effQuery (clientFallback q loc) q = q := by
      unfold effQuery clientFallback jsOrStr2
      dsimp only
      rw [ite_self, hqt]
    have hne : ¬ effQuery (clientFallback q loc) q = "" := by
      rw [heff]; exact hq
    rw [completeSearch_results_current st ck q (clientFallback q loc) stns hne,
      heff]
    exact mergeResults_no_ai stns q

theorem c4_failure_handling_witness :
    (completeSearch c4State c4State.latestSearchId "victoria" "victoria"
        (clientFallback "victoria" none) [c4Station]).results =
      (stationMatches "victoria" [c4Station]).map toStationItem :=
  c4_failure_handling.2.2.2.2 c4State "victoria" "victoria" none [c4Station]
    (by decide) (by decide)

/-- Whether an event can write the cache at key `k`: only a completion for
cache key `k` whose merged result list is non-empty. -/
def mayWriteKeyB (k : String) : Event → Bool
  | .completeEv _ ck sq ai stns =>
    ck = k && !(mergeResults ai.results stns (effQuery ai sq)).isEmpty
  | _ => false

theorem cacheGet_set_ne (c : List (String × CacheEntry)) (ck : String)
    (e : CacheEntry) (k : String) (h : ¬ ck = k) :
    cacheGet (cacheSet c ck e) k = cacheGet c k := by
  induction c with
  | nil => simp [cacheSet, cacheGet, h]
  | cons p rest ih =>
    obtain ⟨k1, e1⟩ := p
    by_cases h1 : k1 = ck
    · subst h1
      simp [cacheSet, cacheGet, h]
    · simp [cacheSet, cacheGet, h1, ih]

theorem completeSearch_cache_unchanged_or_write (st : CoordState) (sid : ℕ)
    (ck sq : String) (ai : AiData) (stns : List Station) :
    (completeSearch st sid ck sq ai stns).cache = st.cache ∨
    (sid = st.latestSearchId ∧
      0 < (mergeResults ai.results stns (effQuery ai sq)).length ∧
      (completeSearch st sid ck sq ai stns).cache =
        cacheSet st.cache ck
          ⟨mergeResults ai.results stns (effQuery ai sq),
           some (mkIntentItem ai sq)⟩) := by
  have hc : (completeSearch st sid ck sq ai stns).cache =
      (completeSearchBody st sid ck sq ai stns).cache := by
    unfold completeSearch
    dsimp only
    split <;> rfl
  rw [hc]
  unfold completeSearchBody
  dsimp only
  split
  · split
    · exact Or.inl rfl
    · exact Or.inl rfl
  · split
    · exact Or.inl rfl
    · rename_i hsid
      split
      · rename_i hlen
        exact Or.inr ⟨not_not.mp hsid, hlen, rfl⟩
      · exact Or.inl rfl

theorem completeSearch_empty_frame (st : CoordState) (ck sq : String)
    (ai : AiData) (stns : List Station)
    (hemp : effQuery ai sq = "" ∨
      mergeResults ai.results stns (effQuery ai sq) = []) :
    (completeSearch st st.latestSearchId ck sq ai stns).cache = st.cache ∧
    (completeSearch st st.latestSearchId ck sq ai stns).emptyStateQuery =
      some ck ∧
    (completeSearch st st.latestSearchId ck sq ai stns).results = [] := by
  have hcs : completeSearch st st.latestSearchId ck sq ai stns =
      { completeSearchBody st st.latestSearchId ck sq ai stns with
        isSearching := false } := by
    unfold completeSearch
    dsimp only
    rw [if_pos (completeSearchBody_latest st _ ck sq ai stns).symm]
  rw [hcs]
  unfold completeSearchBody
  dsimp only
  by_cases he : effQuery ai sq = ""
  · rw [if_pos he,
      if_neg (fun hcon : st.latestSearchId ≠ st.latestSearchId => hcon rfl)]
    exact ⟨rfl, rfl, rfl⟩
  · rcases hemp with he2 | hm
    · exact absurd he2 he
    · rw [if_neg he,
        if_neg (fun hcon : st.latestSearchId ≠ st.latestSearchId => hcon rfl),
        hm, if_neg (by decide : ¬ 0 < ([] : List SRItem).length)]
      exact ⟨rfl, rfl, rfl⟩

theorem runTrace_no_write (k : String) (tr : List Event) :
    ∀ st : CoordState, cacheGet st.cache k = none →
      (∀ e ∈ tr, mayWriteKeyB k e = false) →
      cacheGet (runTrace st tr).cache k = none := by
  induction tr with
  | nil => exact fun st h _ => h
  | cons e rest ih =>
    intro st h hall
    apply ih (stepEvent st e) ?_ (fun x hx => hall x (List.mem_cons_of_mem e hx))
    cases e with
    | submitTsxEv q =>
      show cacheGet (submitTsx st q).1.cache k = none
      rw [submitTsx_cache]
      exact h
    | submitP6Ev q =>
      show cacheGet (submitP6 st q).1.cache k = none
      rw [submitP6_cache]
      exact h
    | failEv sid =>
      show cacheGet (completeFail st sid).cache k = none
      rw [completeFail_cache]
      exact h
    | completeEv sid ck sq ai stns =>
      have hw := hall _ (List.mem_cons_self _ _)
      rcases completeSearch_cache_unchanged_or_write st sid ck sq ai stns with
        hu | ⟨hsid, hlen, hwr⟩
      · show cacheGet (completeSearch st sid ck sq ai stns).cache k = none
        rw [hu]
        exact h
      · have hck : ¬ ck = k := by
          intro hek
          simp [mayWriteKeyB, hek] at hw
          rw [hw] at hlen
          exact absurd hlen (by decide)
        show cacheGet (completeSearch st sid ck sq ai stns).cache k = none
        rw [hwr, cacheGet_set_ne _ _ _ _ hck]
        exact h

theorem submitP6_issues_on_miss (st : CoordState) (q : String)
    (hq : ¬ jsTrim q = "")
    (hc : cacheGet st.cache (jsToLower (jsTrim q)) = none) :
    (submitP6 st q).2 =
      some ⟨jsTrim q, jsToLower (jsTrim q), st.latestSearchId + 1⟩ := by
  unfold submitP6
  dsimp only
  rw [if_neg hq, hc]

/-- C10: the query cache is written only by a current completion whose
merged result list is non-empty; a completion with zero results leaves the
cache untouched and records the key only in the empty-state marker; and
along any event trace in which no completion writes a given key, that key
stays absent from the cache, so resubmitting it (part_006 submit) performs
a fresh search instead of hitting the cache. -/
theorem c10_cache_write_policy :
    (∀ (st : CoordState) (sid : ℕ) (ck sq : String) (ai : AiData)
        (stns : List Station),
      (completeSearch st sid ck sq ai stns).cache = st.cache ∨
      (sid = st.latestSearchId ∧
        0 < (mergeResults ai.results stns (effQuery ai sq)).length ∧
        (completeSearch st sid ck sq ai stns).cache =
          cacheSet st.cache ck
            ⟨mergeResults ai.results stns (effQuery ai sq),
             some (mkIntentItem ai sq)⟩)) ∧
    (∀ (st : CoordState) (ck sq : String) (ai : AiData) (stns : List Station),
      (effQuery ai sq = "" ∨
        mergeResults ai.results stns (effQuery ai sq) = []) →
      (completeSearch st st.latestSearchId ck sq ai stns).cache = st.cache ∧
      (completeSearch st st.latestSearchId ck sq ai stns).emptyStateQuery =
        some ck ∧
      (completeSearch st st.latestSearchId ck sq ai stns).results = []) ∧
    (∀ (st : CoordState) (tr : List Event) (q : String),
      cacheGet st.cache (jsToLower (jsTrim q)) = none →
      (∀ e ∈ tr, mayWriteKeyB (jsToLower (jsTrim q)) e = false) →
      ¬ jsTrim q = "" →
      (submitP6 (runTrace st tr) q).2 =
        some ⟨jsTrim q, jsToLower (jsTrim q),
              (runTrace st tr).latestSearchId + 1⟩) := by
  refine ⟨completeSearch_cache_unchanged_or_write,
    completeSearch_empty_frame, ?_⟩
  intro st tr q hc hall hq
  exact submitP6_issues_on_miss (runTrace st tr) q hq
    (runTrace_no_write (jsToLower (jsTrim q)) tr st hc hall)

theorem c10_cache_write_policy_witness :
    (submitP6 (runTrace c1State [Event.completeEv 0 "x" "y" c1Ai []])
        "tapas").2 =
      some ⟨jsTrim "tapas", jsToLower (jsTrim "tapas"),
            (runTrace c1State
              [Event.completeEv 0 "x" "y" c1Ai []]).latestSearchId + 1⟩ :=
  c10_cache_write_policy.2.2 c1State [Event.completeEv 0 "x" "y" c1Ai []]
    "tapas" (by decide) (by decide) (by decide)

end MyMap
